import Mathlib

/-!
Verification of the request-admission filter (dual-key TTL rate limiter)
from `internal/server/middleware.go`.

Times and durations are modelled as integer nanoseconds (`Int`), matching
Go duration and instant arithmetic at the granularity the code
uses. The third-party TTL cache (`jellydator/ttlcache/v2`) is embedded as
an association list from keys to items carrying their per-item ttl and
absolute expiry instant, together with the `skipTTLExtension` flag that
`SkipTTLExtensionOnHit` sets.
-/

namespace Faucet

/-- Go `time.Second` in nanoseconds. -/
def second : Int := 1000000000

/-- Go `d.Round(time.Second)` for a non-negative duration `d`: the nearest
multiple of a second, halves rounding away from zero; returned in whole
seconds. -/
def roundToSeconds (d : Int) : Nat :=
  (d + 500000000).toNat / 1000000000

/-- Go `time.Duration.String` restricted to non-negative whole-second
durations (`n` in seconds), which is the only shape the limiter prints
after rounding: `"90s"` is rendered `"1m30s"`, `"3600s"` as `"1h0m0s"`. -/
def goDurationString (n : Nat) : String :=
  if n < 60 then toString n ++ "s"
  else if n < 3600 then toString (n / 60) ++ "m" ++ toString (n % 60) ++ "s"
  else toString (n / 3600) ++ "h" ++ toString ((n / 60) % 60) ++ "m" ++ toString (n % 60) ++ "s"

/-- The rejection text built in `Limiter.limitByKey`:
`fmt.Sprintf("You have exceeded the rate limit. Please wait %s before you try again", ttl.Round(time.Second))`. -/
def rateLimitMsg (remaining : Int) : String :=
  "You have exceeded the rate limit. Please wait " ++
    goDurationString (roundToSeconds remaining) ++ " before you try again"

/-- Modelled from the spec: `renderJSON`/`claimResponse` live outside the
provided source; the spec states the rejection body is the JSON object
`{"message": "<text>"}`. -/
def renderJSONBody (msg : String) : String :=
  "\x7b\"message\": \"" ++ msg ++ "\"\x7d"

/-- An HTTP response as produced by `renderJSON`: a message (wrapped into
the JSON body) and a status code. -/
structure Response where
  message : String
  status : Nat
  deriving DecidableEq, Repr

/-- One entry of the ttlcache: its per-item ttl and its absolute expiry
instant (`expireAt = insertion time + ttl`). The stored value (`true` in
the Go code) carries no information and is omitted. -/
structure CacheItem where
  ttl : Int
  expireAt : Int
  deriving DecidableEq, Repr

/-- The `ttlcache.Cache` state: an association list of items plus the
`skipTTLExtension` flag set by `SkipTTLExtensionOnHit`. -/
structure Cache where
  items : List (String × CacheItem)
  skipTTLExtension : Bool
  deriving DecidableEq, Repr

namespace Cache

/-- Association-list lookup (first match), mirroring map access. -/
def lookup (c : Cache) (k : String) : Option CacheItem :=
  match c.items.find? (fun p => p.1 == k) with
  | some p => some p.2
  | none => none

/-- ttlcache `item.expired()`: an item with non-positive ttl never
expires; otherwise it is expired once `expireAt` is strictly in the
past. -/
def itemExpired (it : CacheItem) (now : Int) : Bool :=
  if it.ttl ≤ 0 then false else decide (it.expireAt < now)

/-- Remove every binding of key `k`. -/
def eraseKey (c : Cache) (k : String) : Cache :=
  { c with items := c.items.filter (fun p => !(p.1 == k)) }

/-- ttlcache `SetWithTTL(key, value, ttl)`: insert or overwrite with a
fresh expiry `now + ttl`. -/
def setWithTTL (c : Cache) (now : Int) (k : String) (ttl : Int) : Cache :=
  { c with items := (k, { ttl := ttl, expireAt := now + ttl }) :: (c.eraseKey k).items }

/-- ttlcache `Remove(key)`: delete if present, no-op otherwise. -/
def remove (c : Cache) (k : String) : Cache :=
  c.eraseKey k

/-- ttlcache `GetWithTTL(key)`: `some remaining` when the key holds a
live item (with the time left until expiry), `none` when absent or
expired, together with the possibly updated cache. With
`skipTTLExtension = true` a hit leaves the cache untouched; otherwise the
hit refreshes the item's expiry to `now + item.ttl`. -/
def getWithTTL (c : Cache) (now : Int) (k : String) : Option Int × Cache :=
  match c.lookup k with
  | none => (none, c)
  | some it =>
    if itemExpired it now then (none, c)
    else if c.skipTTLExtension then
      (some (it.expireAt - now), c)
    else
      (some it.ttl, c.setWithTTL now k it.ttl)

/-- The observable part of `GetWithTTL`: `some remaining` for a live key,
`none` otherwise. -/
def probe (c : Cache) (now : Int) (k : String) : Option Int :=
  (c.getWithTTL now k).1

end Cache

/-- An inbound HTTP request as far as the limiter reads it: the
`X-Forwarded-For` header (Go's `Header.Get` yields `""` when the header
is absent) and the transport-level `RemoteAddr`. -/
structure Request where
  xForwardedFor : String
  remoteAddr : String

/-- Go `strings.Split(s, sep)` for a one-character separator, on
character lists: `[]` yields `[[]]`, so the result is always
non-empty. -/
def splitChar (sep : Char) : List Char → List (List Char)
  | [] => [[]]
  | c :: cs =>
    match splitChar sep cs with
    | [] => [[]]
    | h :: t => if c == sep then [] :: h :: t else (c :: h) :: t

/-- Go `strings.Split(s, ",")`. -/
def splitOnComma (s : String) : List String :=
  (splitChar ',' s.toList).map List.asString

/-- Go `strings.TrimSpace`: strip leading and trailing whitespace. -/
def trimSpace (s : String) : String :=
  (((s.toList.dropWhile Char.isWhitespace).reverse.dropWhile Char.isWhitespace).reverse).asString

/-- Index of the last occurrence of `c` in `cs`, if any. -/
def lastIndexOfChar : List Char → Char → Option Nat
  | [], _ => none
  | x :: xs, c =>
    match lastIndexOfChar xs c with
    | some j => some (j + 1)
    | none => if x == c then some 0 else none

/-- Go `net.SplitHostPort`: split `"host:port"` or `"[host]:port"` into
host and port, failing (`none`) when there is no colon, when an
unbracketed host itself contains a colon, or when brackets are
malformed. -/
def splitHostPort (s : String) : Option (String × String) :=
  let cs := s.toList
  match lastIndexOfChar cs ':' with
  | none => none
  | some i =>
    if cs.head? = some '[' then
      match (cs.drop 1).findIdx? (fun x => x == ']') with
      | none => none
      | some e =>
        if 1 + e + 1 = i then
          some (((cs.drop 1).take e).asString, (cs.drop (i + 1)).asString)
        else none
    else
      let host := cs.take i
      if host.contains ':' || cs.contains '[' || cs.contains ']' then none
      else some (host.asString, (cs.drop (i + 1)).asString)

/-- `getClientIPFromRequest`: with a positive proxy count and a non-empty
`X-Forwarded-For` header, split on commas and pick the token
`proxyCount` places from the right (index clamped to 0), trimmed;
otherwise fall back to `RemoteAddr`, with the port stripped when
`net.SplitHostPort` succeeds. -/
def getClientIPFromRequest (proxyCount : Int) (r : Request) : String :=
  if 0 < proxyCount then
    if r.xForwardedFor ≠ "" then
      let parts := splitOnComma r.xForwardedFor
      let partIndex : Int := (parts.length : Int) - proxyCount
      let partIndex : Int := if partIndex < 0 then 0 else partIndex
      trimSpace (parts.getD partIndex.toNat "")
    else
      match splitHostPort r.remoteAddr with
      | some (host, _) => host
      | none => r.remoteAddr
  else
    match splitHostPort r.remoteAddr with
    | some (host, _) => host
    | none => r.remoteAddr

/-- The `Limiter` struct: the shared ttlcache, the configured trusted
proxy hop count and the rate-limit window. The mutex is represented by
treating the probe-then-set region as one atomic step. -/
structure Limiter where
  cache : Cache
  proxyCount : Int
  ttl : Int

/-- `NewLimiter`: fresh empty cache with `SkipTTLExtensionOnHit(true)`. -/
def NewLimiter (proxyCount : Int) (ttl : Int) : Limiter :=
  { cache := { items := [], skipTTLExtension := true }
    proxyCount := proxyCount
    ttl := ttl }

/-- `Limiter.limitByKey`: probe the cache for `key`; on a live entry
render the 429 rejection embedding the rounded remaining TTL and report
`true` (limited). -/
def limitByKey (c : Cache) (now : Int) (key : String) : Option Response × Cache :=
  match c.getWithTTL now key with
  | (some remaining, c') =>
    (some { message := rateLimitMsg remaining, status := 429 }, c')
  | (none, c') => (none, c')

/-- The decision of the admission step. -/
inductive Decision where
  | admitted
  | rejected (resp : Response)
  deriving DecidableEq, Repr

/-- The mutex-guarded core of `Limiter.ServeHTTP` (lines 52-60): probe
the address key, then the client-IP key, short-circuiting on the first
hit; when both are absent reserve both with the configured ttl. The
`ttl <= 0` escape hatch returns admitted without touching the cache. -/
def Limiter.admitRequest (l : Limiter) (now : Int) (address clientIP : String) :
    Decision × Cache :=
  if l.ttl ≤ 0 then (.admitted, l.cache)
  else
    match limitByKey l.cache now address with
    | (some resp, c1) => (.rejected resp, c1)
    | (none, c1) =>
      match limitByKey c1 now clientIP with
      | (some resp, c2) => (.rejected resp, c2)
      | (none, c2) =>
        (.admitted, (c2.setWithTTL now address l.ttl).setWithTTL now clientIP l.ttl)

/-- Result of `readAddress` as `ServeHTTP` consumes it: the address key,
a `malformedRequest` error carrying its own status and message, or any
other error. -/
inductive AddressResult where
  | ok (address : String)
  | malformed (status : Nat) (message : String)
  | otherError

/-- What a whole `ServeHTTP` invocation did: responded with an error
before the limiter ran, rejected with 429, or invoked the downstream
handler (recording its response status). -/
inductive Outcome where
  | errorResponse (resp : Response)
  | rejected (resp : Response)
  | handled (status : Nat)
  deriving DecidableEq, Repr

/-- `Limiter.ServeHTTP` end to end: surface `readAddress` failures
(malformed requests with their own status/message, anything else as a
generic 500), honour the `ttl <= 0` escape hatch, run the guarded
admission step, and after the downstream handler completes roll the two
reservations back when its status is not 200. `downstreamStatus` is the
status the downstream `next` handler would produce. -/
def Limiter.serveHTTP (l : Limiter) (now : Int) (ra : AddressResult)
    (r : Request) (downstreamStatus : Nat) : Outcome × Cache :=
  match ra with
  | .malformed st msg => (.errorResponse { message := msg, status := st }, l.cache)
  | .otherError =>
    (.errorResponse { message := "Internal Server Error", status := 500 }, l.cache)
  | .ok address =>
    if l.ttl ≤ 0 then (.handled downstreamStatus, l.cache)
    else
      let clientIP := getClientIPFromRequest l.proxyCount r
      match l.admitRequest now address clientIP with
      | (.rejected resp, c') => (.rejected resp, c')
      | (.admitted, c') =>
        if downstreamStatus ≠ 200 then
          (.handled downstreamStatus, (c'.remove address).remove clientIP)
        else
          (.handled downstreamStatus, c')

/-- A serialization of N concurrent `Admit` calls sharing one identity:
the mutex makes each probe-then-reserve region atomic, so any concurrent
execution is some sequence of `Limiter.admitRequest` steps threading the cache;
`admitSeq` runs one such sequence (one call per listed instant) and
counts the admitted calls. -/
def admitSeq (pc ttl : Int) (a ip : String) : Cache → List Int → Nat × Cache
  | c, [] => (0, c)
  | c, t :: ts =>
    match Limiter.admitRequest ⟨c, pc, ttl⟩ t a ip with
    | (.admitted, c') =>
      ((admitSeq pc ttl a ip c' ts).1 + 1, (admitSeq pc ttl a ip c' ts).2)
    | (.rejected _, c') => admitSeq pc ttl a ip c' ts

/-! ## Cache lemmas -/

theorem Cache.skipTTLExtension_eraseKey (c : Cache) (k : String) :
    (c.eraseKey k).skipTTLExtension = c.skipTTLExtension := rfl

theorem Cache.skipTTLExtension_setWithTTL (c : Cache) (now : Int) (k : String) (ttl : Int) :
    (c.setWithTTL now k ttl).skipTTLExtension = c.skipTTLExtension := rfl

theorem Cache.getWithTTL_of_skip (c : Cache) (now : Int) (k : String)
    (h : c.skipTTLExtension = true) :
    c.getWithTTL now k = (c.probe now k, c) := by
  unfold Cache.probe Cache.getWithTTL
  cases hl : c.lookup k with
  | none => rfl
  | some it =>
    by_cases he : Cache.itemExpired it now = true
    · simp [he]
    · simp [he, h]

theorem find?_filter_ne (l : List (String × CacheItem)) (k k' : String) (h : k' ≠ k) :
    (l.filter (fun p => !(p.1 == k))).find? (fun p => p.1 == k') =
      l.find? (fun p => p.1 == k') := by
  induction l with
  | nil => rfl
  | cons x xs ih =>
    rw [List.filter_cons]
    cases hx : (x.1 == k) with
    | true =>
      have h2 : (x.1 == k') = false := by
        rw [beq_eq_false_iff_ne]
        intro hc
        exact h (hc.symm.trans (eq_of_beq hx))
      simp only [hx, Bool.not_true, Bool.false_eq_true, if_false]
      simp only [List.find?, h2, ih]
    | false =>
      simp only [hx, Bool.not_false, if_true]
      simp only [List.find?]
      cases hx' : (x.1 == k') <;> simp [ih]

theorem find?_filter_self (l : List (String × CacheItem)) (k : String) :
    (l.filter (fun p => !(p.1 == k))).find? (fun p => p.1 == k) = none := by
  induction l with
  | nil => rfl
  | cons x xs ih =>
    rw [List.filter_cons]
    cases hx : (x.1 == k) with
    | true =>
      simp only [hx, Bool.not_true, Bool.false_eq_true, if_false]
      exact ih
    | false =>
      simp only [hx, Bool.not_false, if_true]
      simp only [List.find?, hx, ih]

theorem Cache.lookup_eraseKey_self (c : Cache) (k : String) :
    (c.eraseKey k).lookup k = none := by
  unfold Cache.lookup Cache.eraseKey
  rw [find?_filter_self]

theorem Cache.lookup_eraseKey_ne (c : Cache) (k k' : String) (h : k' ≠ k) :
    (c.eraseKey k).lookup k' = c.lookup k' := by
  unfold Cache.lookup Cache.eraseKey
  rw [find?_filter_ne c.items k k' h]

theorem Cache.lookup_setWithTTL_self (c : Cache) (now : Int) (k : String) (ttl : Int) :
    (c.setWithTTL now k ttl).lookup k = some { ttl := ttl, expireAt := now + ttl } := by
  unfold Cache.setWithTTL Cache.lookup
  simp [List.find?]

theorem Cache.lookup_setWithTTL_ne (c : Cache) (now : Int) (k k' : String) (ttl : Int)
    (h : k' ≠ k) :
    (c.setWithTTL now k ttl).lookup k' = c.lookup k' := by
  have hbeq : (k == k') = false := by
    rw [beq_eq_false_iff_ne]
    exact fun hc => h hc.symm
  unfold Cache.setWithTTL Cache.lookup Cache.eraseKey
  simp only [List.find?, hbeq]
  rw [find?_filter_ne c.items k k' h]

theorem Cache.probe_eraseKey_self (c : Cache) (t : Int) (k : String) :
    (c.eraseKey k).probe t k = none := by
  unfold Cache.probe Cache.getWithTTL
  simp [Cache.lookup_eraseKey_self]

/-- Probing either reserved key of a double reservation within the window
yields the shared remaining time `t0 + ttl - t`. -/
theorem probe_reserve_hit (c : Cache) (t0 ttl t : Int) (a ip k : String)
    (hk : k = a ∨ k = ip) (httl : 0 < ttl) (hle : t ≤ t0 + ttl)
    (hskip : c.skipTTLExtension = true) :
    ((c.setWithTTL t0 a ttl).setWithTTL t0 ip ttl).probe t k = some (t0 + ttl - t) := by
  have hlook : ((c.setWithTTL t0 a ttl).setWithTTL t0 ip ttl).lookup k =
      some { ttl := ttl, expireAt := t0 + ttl } := by
    by_cases hip : k = ip
    · rw [hip, Cache.lookup_setWithTTL_self]
    · rcases hk with hka | hka
      · rw [Cache.lookup_setWithTTL_ne _ _ _ _ _ hip, hka, Cache.lookup_setWithTTL_self]
      · exact absurd hka hip
  unfold Cache.probe Cache.getWithTTL
  rw [hlook]
  have hexp : Cache.itemExpired { ttl := ttl, expireAt := t0 + ttl } t = false := by
    unfold Cache.itemExpired
    rw [if_neg (not_le.mpr httl)]
    simp [not_lt.mpr hle]
  have hskip2 : ((c.setWithTTL t0 a ttl).setWithTTL t0 ip ttl).skipTTLExtension = true := by
    rw [Cache.skipTTLExtension_setWithTTL, Cache.skipTTLExtension_setWithTTL, hskip]
  simp [hexp, hskip2]

/-- After the window has elapsed, both reserved keys probe as absent. -/
theorem probe_reserve_expired (c : Cache) (t0 ttl t : Int) (a ip k : String)
    (hk : k = a ∨ k = ip) (httl : 0 < ttl) (hgt : t0 + ttl < t) :
    ((c.setWithTTL t0 a ttl).setWithTTL t0 ip ttl).probe t k = none := by
  have hlook : ((c.setWithTTL t0 a ttl).setWithTTL t0 ip ttl).lookup k =
      some { ttl := ttl, expireAt := t0 + ttl } := by
    by_cases hip : k = ip
    · rw [hip, Cache.lookup_setWithTTL_self]
    · rcases hk with hka | hka
      · rw [Cache.lookup_setWithTTL_ne _ _ _ _ _ hip, hka, Cache.lookup_setWithTTL_self]
      · exact absurd hka hip
  unfold Cache.probe Cache.getWithTTL
  rw [hlook]
  have hexp : Cache.itemExpired { ttl := ttl, expireAt := t0 + ttl } t = true := by
    unfold Cache.itemExpired
    rw [if_neg (not_le.mpr httl)]
    simp [hgt]
  simp [hexp]

/-! ## Admission-step lemmas -/

theorem limitByKey_of_skip (c : Cache) (now : Int) (k : String)
    (hskip : c.skipTTLExtension = true) :
    limitByKey c now k =
      (match c.probe now k with
       | some rem => some { message := rateLimitMsg rem, status := 429 }
       | none => none, c) := by
  unfold limitByKey
  rw [Cache.getWithTTL_of_skip _ _ _ hskip]
  cases c.probe now k <;> rfl

theorem admit_of_addr_hit (c : Cache) (pc ttl now : Int) (a ip : String) (rem : Int)
    (hskip : c.skipTTLExtension = true) (httl : 0 < ttl)
    (ha : c.probe now a = some rem) :
    Limiter.admitRequest ⟨c, pc, ttl⟩ now a ip =
      (.rejected { message := rateLimitMsg rem, status := 429 }, c) := by
  unfold Limiter.admitRequest
  rw [if_neg (not_le.mpr httl), limitByKey_of_skip _ _ _ hskip, ha]

theorem admit_of_ip_hit (c : Cache) (pc ttl now : Int) (a ip : String) (rem : Int)
    (hskip : c.skipTTLExtension = true) (httl : 0 < ttl)
    (ha : c.probe now a = none) (hip : c.probe now ip = some rem) :
    Limiter.admitRequest ⟨c, pc, ttl⟩ now a ip =
      (.rejected { message := rateLimitMsg rem, status := 429 }, c) := by
  unfold Limiter.admitRequest
  rw [if_neg (not_le.mpr httl), limitByKey_of_skip _ _ _ hskip, ha]
  show (match limitByKey c now ip with
        | (some resp, c2) => (Decision.rejected resp, c2)
        | (none, c2) => _) = _
  rw [limitByKey_of_skip _ _ _ hskip, hip]

theorem admit_of_both_absent (c : Cache) (pc ttl now : Int) (a ip : String)
    (hskip : c.skipTTLExtension = true) (httl : 0 < ttl)
    (ha : c.probe now a = none) (hip : c.probe now ip = none) :
    Limiter.admitRequest ⟨c, pc, ttl⟩ now a ip =
      (.admitted, (c.setWithTTL now a ttl).setWithTTL now ip ttl) := by
  unfold Limiter.admitRequest
  rw [if_neg (not_le.mpr httl), limitByKey_of_skip _ _ _ hskip, ha]
  show (match limitByKey c now ip with
        | (some resp, c2) => (Decision.rejected resp, c2)
        | (none, c2) => (Decision.admitted, (c2.setWithTTL now a ttl).setWithTTL now ip ttl)) = _
  rw [limitByKey_of_skip _ _ _ hskip, hip]

/-- A call arriving at `t` within the window of a double reservation made
at `t0` is rejected with the reserved keys' shared remaining time, and
leaves the cache untouched. -/
theorem admit_after_reserve (c : Cache) (pc ttl t0 t : Int) (a ip a' ip' : String)
    (hkey : a' = a ∨ a' = ip ∨
      (((c.setWithTTL t0 a ttl).setWithTTL t0 ip ttl).probe t a' = none ∧
        (ip' = a ∨ ip' = ip)))
    (hskip : c.skipTTLExtension = true) (httl : 0 < ttl)
    (hle : t ≤ t0 + ttl) :
    Limiter.admitRequest ⟨(c.setWithTTL t0 a ttl).setWithTTL t0 ip ttl, pc, ttl⟩ t a' ip' =
      (.rejected { message := rateLimitMsg (t0 + ttl - t), status := 429 },
        (c.setWithTTL t0 a ttl).setWithTTL t0 ip ttl) := by
  have hskip2 : ((c.setWithTTL t0 a ttl).setWithTTL t0 ip ttl).skipTTLExtension = true := by
    rw [Cache.skipTTLExtension_setWithTTL, Cache.skipTTLExtension_setWithTTL, hskip]
  rcases hkey with h | h | ⟨ha', h⟩
  · exact admit_of_addr_hit _ _ _ _ _ _ _ hskip2 httl
      (probe_reserve_hit c t0 ttl t a ip a' (Or.inl h) httl hle hskip)
  · exact admit_of_addr_hit _ _ _ _ _ _ _ hskip2 httl
      (probe_reserve_hit c t0 ttl t a ip a' (Or.inr h) httl hle hskip)
  · exact admit_of_ip_hit _ _ _ _ _ _ _ hskip2 httl ha'
      (probe_reserve_hit c t0 ttl t a ip ip' h httl hle hskip)

theorem Cache.probe_of_lookup_none (c : Cache) (t : Int) (k : String)
    (h : c.lookup k = none) : c.probe t k = none := by
  unfold Cache.probe Cache.getWithTTL
  rw [h]

theorem probe_remove_both (X : Cache) (t : Int) (a ip k : String)
    (hk : k = a ∨ k = ip) :
    ((X.remove a).remove ip).probe t k = none := by
  apply Cache.probe_of_lookup_none
  by_cases hip : k = ip
  · rw [hip]
    exact Cache.lookup_eraseKey_self _ _
  · rcases hk with hka | hka
    · show ((X.eraseKey a).eraseKey ip).lookup k = none
      rw [Cache.lookup_eraseKey_ne _ _ _ hip, hka]
      exact Cache.lookup_eraseKey_self _ _
    · exact absurd hka hip

theorem admitSeq_after_reserve (pc ttl t0 : Int) (a ip : String) (c : Cache)
    (hskip : c.skipTTLExtension = true) (httl : 0 < ttl) :
    ∀ ts : List Int, (∀ t ∈ ts, t ≤ t0 + ttl) →
      admitSeq pc ttl a ip ((c.setWithTTL t0 a ttl).setWithTTL t0 ip ttl) ts =
        (0, (c.setWithTTL t0 a ttl).setWithTTL t0 ip ttl) := by
  intro ts
  induction ts with
  | nil => intro _; rfl
  | cons t ts ih =>
    intro h
    show (match Limiter.admitRequest ⟨(c.setWithTTL t0 a ttl).setWithTTL t0 ip ttl, pc, ttl⟩ t a ip with
          | (.admitted, c') =>
            ((admitSeq pc ttl a ip c' ts).1 + 1, (admitSeq pc ttl a ip c' ts).2)
          | (.rejected _, c') => admitSeq pc ttl a ip c' ts) = _
    rw [admit_after_reserve c pc ttl t0 t a ip a ip (Or.inl rfl) hskip httl
      (h t (List.mem_cons_self t ts))]
    exact ih fun t' ht' => h t' (List.mem_cons_of_mem _ ht')

theorem roundToSeconds_mono (d1 d2 : Int) (h : d1 ≤ d2) :
    roundToSeconds d1 ≤ roundToSeconds d2 := by
  unfold roundToSeconds
  have h2 : (d1 + 500000000).toNat ≤ (d2 + 500000000).toNat := by omega
  exact Nat.div_le_div_right h2

theorem goDurationString_of_lt_60 (n : Nat) (h : n < 60) :
    goDurationString n = toString n ++ "s" := by
  unfold goDurationString
  rw [if_pos h]

/-! ## Claim theorems -/

/-- C1: with a positive ttl the guarded admission step first probes the
address key and, on a hit, rejects with 429 and the message embedding
that key's rounded remaining TTL, leaving the store unchanged; otherwise
it probes the identity key and rejects the same way on a hit; otherwise
it reserves both keys with the configured ttl and admits — in exactly
this order, short-circuiting. -/
theorem C1_admit_probe_order (c : Cache) (pc ttl now : Int) (a ip : String)
    (hskip : c.skipTTLExtension = true) (httl : 0 < ttl) :
    (∀ rem, c.probe now a = some rem →
      Limiter.admitRequest ⟨c, pc, ttl⟩ now a ip =
        (.rejected { message := rateLimitMsg rem, status := 429 }, c)) ∧
    (c.probe now a = none → ∀ rem, c.probe now ip = some rem →
      Limiter.admitRequest ⟨c, pc, ttl⟩ now a ip =
        (.rejected { message := rateLimitMsg rem, status := 429 }, c)) ∧
    (c.probe now a = none → c.probe now ip = none →
      Limiter.admitRequest ⟨c, pc, ttl⟩ now a ip =
        (.admitted, (c.setWithTTL now a ttl).setWithTTL now ip ttl)) :=
  ⟨fun rem ha => admit_of_addr_hit c pc ttl now a ip rem hskip httl ha,
   fun ha rem hip => admit_of_ip_hit c pc ttl now a ip rem hskip httl ha hip,
   fun ha hip => admit_of_both_absent c pc ttl now a ip hskip httl ha hip⟩

theorem C1_admit_probe_order_witness :
    Limiter.admitRequest
        ⟨{ items := [("addr", { ttl := 10 * second, expireAt := 10 * second })],
           skipTTLExtension := true }, 0, 10 * second⟩ 0 "addr" "ip" =
      (.rejected { message := rateLimitMsg (10 * second), status := 429 },
        { items := [("addr", { ttl := 10 * second, expireAt := 10 * second })],
          skipTTLExtension := true }) :=
  (C1_admit_probe_order
    { items := [("addr", { ttl := 10 * second, expireAt := 10 * second })],
      skipTTLExtension := true }
    0 (10 * second) 0 "addr" "ip" rfl (by decide)).1 (10 * second) (by decide)

/-- C6: with `ttl <= 0` the admission step admits unconditionally for
every cache state, without consulting or modifying it, and the full
handler invokes the downstream handler directly. -/
theorem C6_ttl_nonpos_disables (c : Cache) (pc ttl now : Int) (a ip : String)
    (r : Request) (ds : Nat) (h : ttl ≤ 0) :
    Limiter.admitRequest ⟨c, pc, ttl⟩ now a ip = (.admitted, c) ∧
    Limiter.serveHTTP ⟨c, pc, ttl⟩ now (.ok a) r ds = (.handled ds, c) := by
  constructor
  · unfold Limiter.admitRequest
    rw [if_pos h]
  · show (if ttl ≤ 0 then ((Outcome.handled ds, c) : Outcome × Cache) else _) = _
    rw [if_pos h]

theorem C6_ttl_nonpos_disables_witness :
    Limiter.admitRequest
        ⟨{ items := [("a", { ttl := second, expireAt := second })],
           skipTTLExtension := true }, 0, 0⟩ 0 "a" "ip" =
      (.admitted,
        { items := [("a", { ttl := second, expireAt := second })],
          skipTTLExtension := true }) ∧
    Limiter.serveHTTP
        ⟨{ items := [("a", { ttl := second, expireAt := second })],
           skipTTLExtension := true }, 0, 0⟩ 0 (.ok "a")
        { xForwardedFor := "", remoteAddr := "1.2.3.4:80" } 503 =
      (.handled 503,
        { items := [("a", { ttl := second, expireAt := second })],
          skipTTLExtension := true }) :=
  C6_ttl_nonpos_disables
    { items := [("a", { ttl := second, expireAt := second })], skipTTLExtension := true }
    0 0 0 "a" "ip" { xForwardedFor := "", remoteAddr := "1.2.3.4:80" } 503 (by decide)

/-- C9: when the address key cannot be derived, the handler responds with
the malformed-request collaborator's own status and message, or with the
generic 500 response for any other extraction failure; in both cases the
cache is untouched and the downstream handler is not invoked. -/
theorem C9_address_failure_shortcircuits (l : Limiter) (now : Int) (r : Request)
    (ds : Nat) :
    (∀ st msg, l.serveHTTP now (.malformed st msg) r ds =
      (.errorResponse { message := msg, status := st }, l.cache)) ∧
    l.serveHTTP now .otherError r ds =
      (.errorResponse { message := "Internal Server Error", status := 500 }, l.cache) :=
  ⟨fun _ _ => rfl, rfl⟩

/-- C10: an admission step that rejects leaves the store exactly as it
was: nothing inserted, no expiry refreshed. -/
theorem C10_rejected_leaves_store (c : Cache) (pc ttl now : Int) (a ip : String)
    (resp : Response) (c' : Cache)
    (hskip : c.skipTTLExtension = true)
    (h : Limiter.admitRequest ⟨c, pc, ttl⟩ now a ip = (.rejected resp, c')) :
    c' = c := by
  by_cases httl : ttl ≤ 0
  · unfold Limiter.admitRequest at h
    rw [if_pos httl] at h
    simp at h
  · cases hpa : c.probe now a with
    | some rem =>
      rw [admit_of_addr_hit c pc ttl now a ip rem hskip (lt_of_not_le httl) hpa] at h
      cases h
      rfl
    | none =>
      cases hpi : c.probe now ip with
      | some rem =>
        rw [admit_of_ip_hit c pc ttl now a ip rem hskip (lt_of_not_le httl) hpa hpi] at h
        cases h
        rfl
      | none =>
        rw [admit_of_both_absent c pc ttl now a ip hskip (lt_of_not_le httl) hpa hpi] at h
        simp at h

theorem C10_rejected_leaves_store_witness :
    (Limiter.admitRequest
        ⟨{ items := [("k", { ttl := second, expireAt := second })],
           skipTTLExtension := true }, 0, second⟩ 0 "k" "ip").2 =
      { items := [("k", { ttl := second, expireAt := second })],
        skipTTLExtension := true } :=
  C10_rejected_leaves_store
    { items := [("k", { ttl := second, expireAt := second })], skipTTLExtension := true }
    0 second 0 "k" "ip"
    { message := rateLimitMsg second, status := 429 }
    (Limiter.admitRequest
      ⟨{ items := [("k", { ttl := second, expireAt := second })],
         skipTTLExtension := true }, 0, second⟩ 0 "k" "ip").2
    rfl (by decide)

/-- C7: whenever no forwarded-for token is used (non-positive proxy count,
or the header absent), the identity resolver returns the transport-layer
source address, stripped of its port when `net.SplitHostPort` succeeds
and unchanged otherwise; it always returns some string (it is total). -/
theorem C7_fallback_remote_addr (pc : Int) (r : Request)
    (h : pc ≤ 0 ∨ r.xForwardedFor = "") :
    getClientIPFromRequest pc r =
      match splitHostPort r.remoteAddr with
      | some (host, _) => host
      | none => r.remoteAddr := by
  unfold getClientIPFromRequest
  rcases h with h | h
  · rw [if_neg (not_lt.mpr h)]
  · by_cases hpc : 0 < pc
    · rw [if_pos hpc, if_neg (not_not_intro h)]
    · rw [if_neg hpc]

theorem C7_fallback_remote_addr_witness :
    getClientIPFromRequest 0
        { xForwardedFor := "5.6.7.8", remoteAddr := "1.2.3.4:8080" } = "1.2.3.4" ∧
    getClientIPFromRequest 3
        { xForwardedFor := "", remoteAddr := "not-host-port" } = "not-host-port" := by
  constructor
  · rw [C7_fallback_remote_addr 0
      { xForwardedFor := "5.6.7.8", remoteAddr := "1.2.3.4:8080" } (Or.inl (by decide))]
    decide
  · rw [C7_fallback_remote_addr 3
      { xForwardedFor := "", remoteAddr := "not-host-port" } (Or.inr rfl)]
    decide

/-- C5: with a positive proxy count and a present forwarded-for header,
the resolver splits the header on commas and returns the trimmed token at
index `len(tokens) - proxyCount`, the index clamping to 0 (via truncated
natural subtraction) instead of panicking or erroring. -/
theorem C5_xff_token_selection (pc : Int) (r : Request)
    (hpc : 0 < pc) (hxff : r.xForwardedFor ≠ "") :
    getClientIPFromRequest pc r =
      trimSpace ((splitOnComma r.xForwardedFor).getD
        ((splitOnComma r.xForwardedFor).length - pc.toNat) "") := by
  unfold getClientIPFromRequest
  rw [if_pos hpc, if_pos hxff]
  show trimSpace ((splitOnComma r.xForwardedFor).getD
      (if (((splitOnComma r.xForwardedFor).length : Int) - pc) < 0 then (0 : Int)
       else ((splitOnComma r.xForwardedFor).length : Int) - pc).toNat "") = _
  have hidx : (if (((splitOnComma r.xForwardedFor).length : Int) - pc) < 0 then (0 : Int)
      else ((splitOnComma r.xForwardedFor).length : Int) - pc).toNat =
      (splitOnComma r.xForwardedFor).length - pc.toNat := by
    split <;> omega
  rw [hidx]

theorem C5_xff_token_selection_witness :
    getClientIPFromRequest 2
        { xForwardedFor := "1.2.3.4, 10.0.0.1, 10.0.0.2", remoteAddr := "9.9.9.9:80" } =
      "10.0.0.1" ∧
    getClientIPFromRequest 5
        { xForwardedFor := "1.2.3.4", remoteAddr := "9.9.9.9:80" } = "1.2.3.4" := by
  constructor
  · rw [C5_xff_token_selection 2
      { xForwardedFor := "1.2.3.4, 10.0.0.1, 10.0.0.2", remoteAddr := "9.9.9.9:80" }
      (by decide) (by decide)]
    decide
  · rw [C5_xff_token_selection 5
      { xForwardedFor := "1.2.3.4", remoteAddr := "9.9.9.9:80" } (by decide) (by decide)]
    decide

/-- C3 counterexample: with 90 seconds remaining, the rejection message
renders the rounded duration with Go duration formatting as "1m30s" —
not as "90s", which the claim requires for every remaining TTL including
values of one minute or more. -/
theorem C3_counterexample :
    (Limiter.admitRequest
        ⟨{ items := [("k", { ttl := 90 * second, expireAt := 90 * second })],
           skipTTLExtension := true }, 0, 90 * second⟩ 0 "k" "ip").1 =
      .rejected
        { message := "You have exceeded the rate limit. Please wait 1m30s before you try again",
          status := 429 } ∧
    "You have exceeded the rate limit. Please wait 1m30s before you try again" ≠
      "You have exceeded the rate limit. Please wait 90s before you try again" := by
  decide

/-- C3 amended: every rejection issued by the rate limiter carries HTTP
status 429 and a JSON body wrapping the message; the message embeds the
remaining TTL rounded to the nearest second rendered with Go duration
formatting, which coincides with "You have exceeded the rate limit.
Please wait <N>s before you try again" exactly when the rounded
remainder is under one minute (a minute or more renders as, e.g.,
"1m30s"). -/
theorem C3_rejection_format (c : Cache) (now : Int) (k : String)
    (resp : Response) (c' : Cache)
    (h : limitByKey c now k = (some resp, c')) :
    resp.status = 429 ∧
    renderJSONBody resp.message = "\x7b\"message\": \"" ++ resp.message ++ "\"\x7d" ∧
    ∃ rem, c.probe now k = some rem ∧
      resp.message = rateLimitMsg rem ∧
      (roundToSeconds rem < 60 →
        resp.message = "You have exceeded the rate limit. Please wait " ++
          (toString (roundToSeconds rem) ++ "s") ++ " before you try again") := by
  unfold limitByKey at h
  cases hg : c.getWithTTL now k with
  | mk fst snd =>
    rw [hg] at h
    cases fst with
    | none => simp at h
    | some rem =>
      rw [Prod.mk.injEq] at h
      obtain ⟨h1, _⟩ := h
      injection h1 with h1
      subst h1
      refine ⟨rfl, rfl, rem, ?_, rfl, ?_⟩
      · show (c.getWithTTL now k).1 = some rem
        rw [hg]
      · intro hlt
        show rateLimitMsg rem = _
        unfold rateLimitMsg
        rw [goDurationString_of_lt_60 _ hlt]

theorem C3_rejection_format_witness :
    ({ message := rateLimitMsg (10 * second), status := 429 } : Response).status = 429 ∧
    renderJSONBody ({ message := rateLimitMsg (10 * second), status := 429 } : Response).message =
      "\x7b\"message\": \"" ++
        ({ message := rateLimitMsg (10 * second), status := 429 } : Response).message ++ "\"\x7d" ∧
    ∃ rem,
      Cache.probe
          { items := [("k", { ttl := 10 * second, expireAt := 10 * second })],
            skipTTLExtension := true } 0 "k" = some rem ∧
      ({ message := rateLimitMsg (10 * second), status := 429 } : Response).message =
        rateLimitMsg rem ∧
      (roundToSeconds rem < 60 →
        ({ message := rateLimitMsg (10 * second), status := 429 } : Response).message =
          "You have exceeded the rate limit. Please wait " ++
            (toString (roundToSeconds rem) ++ "s") ++ " before you try again") :=
  C3_rejection_format
    { items := [("k", { ttl := 10 * second, expireAt := 10 * second })],
      skipTTLExtension := true }
    0 "k" { message := rateLimitMsg (10 * second), status := 429 }
    { items := [("k", { ttl := 10 * second, expireAt := 10 * second })],
      skipTTLExtension := true }
    (by decide)

/-- C4 counterexample: after a successful admission with a 10-second ttl,
two successive probes at strictly increasing instants (0.1s and 0.2s
after admission) both report the same rounded remaining wait ("10s"), so
the reported remaining-wait value is not strictly decreasing across
successive probes as the claim states. -/
theorem C4_counterexample :
    (0 : Int) < 100000000 ∧ (100000000 : Int) < 200000000 ∧
    (Limiter.admitRequest
        ⟨(Limiter.admitRequest ⟨(NewLimiter 0 (10 * second)).cache, 0, 10 * second⟩ 0 "a" "ip").2,
          0, 10 * second⟩ 100000000 "a" "ip").1 =
      .rejected
        { message := "You have exceeded the rate limit. Please wait 10s before you try again",
          status := 429 } ∧
    (Limiter.admitRequest
        ⟨(Limiter.admitRequest ⟨(NewLimiter 0 (10 * second)).cache, 0, 10 * second⟩ 0 "a" "ip").2,
          0, 10 * second⟩ 200000000 "a" "ip").1 =
      .rejected
        { message := "You have exceeded the rate limit. Please wait 10s before you try again",
          status := 429 } := by
  decide

/-- C4 amended: after a successful admission, every admit within ttl
whose address key or derived identity key equals either reserved key is
rejected with HTTP status 429, leaving the store exactly unchanged (no
TTL refresh on probing); the same-identity probe reports exactly the
shared remaining time; the exact remaining TTL strictly decreases across
successive probes at increasing instants, and hence the rounded value
embedded in the message is non-increasing (though not strictly
decreasing). -/
theorem C4_window_rejection_countdown (c : Cache) (pc ttl t0 t1 t2 : Int)
    (a ip : String)
    (hskip : c.skipTTLExtension = true) (httl : 0 < ttl)
    (ha : c.probe t0 a = none) (hip : c.probe t0 ip = none)
    (h12 : t1 < t2) (h2 : t2 ≤ t0 + ttl) :
    (Limiter.admitRequest ⟨c, pc, ttl⟩ t0 a ip).1 = .admitted ∧
    (∀ t a' ip', t ≤ t0 + ttl →
      (a' = a ∨ a' = ip ∨ ip' = a ∨ ip' = ip) →
      ∃ resp,
        Limiter.admitRequest ⟨(Limiter.admitRequest ⟨c, pc, ttl⟩ t0 a ip).2, pc, ttl⟩ t a' ip' =
          (.rejected resp, (Limiter.admitRequest ⟨c, pc, ttl⟩ t0 a ip).2) ∧
        resp.status = 429) ∧
    (∀ t, t ≤ t0 + ttl →
      Limiter.admitRequest ⟨(Limiter.admitRequest ⟨c, pc, ttl⟩ t0 a ip).2, pc, ttl⟩ t a ip =
        (.rejected { message := rateLimitMsg (t0 + ttl - t), status := 429 },
          (Limiter.admitRequest ⟨c, pc, ttl⟩ t0 a ip).2)) ∧
    t0 + ttl - t2 < t0 + ttl - t1 ∧
    roundToSeconds (t0 + ttl - t2) ≤ roundToSeconds (t0 + ttl - t1) := by
  have hres := admit_of_both_absent c pc ttl t0 a ip hskip httl ha hip
  have hskip2 : ((c.setWithTTL t0 a ttl).setWithTTL t0 ip ttl).skipTTLExtension = true := hskip
  refine ⟨by rw [hres], ?_, ?_, by omega, roundToSeconds_mono _ _ (by omega)⟩
  · intro t a' ip' ht hkey
    rw [hres]
    cases hpa : ((c.setWithTTL t0 a ttl).setWithTTL t0 ip ttl).probe t a' with
    | some rem =>
      exact ⟨{ message := rateLimitMsg rem, status := 429 },
        admit_of_addr_hit _ pc ttl t a' ip' rem hskip2 httl hpa, rfl⟩
    | none =>
      have hip' : ip' = a ∨ ip' = ip := by
        rcases hkey with h | h | h | h
        · rw [h, probe_reserve_hit c t0 ttl t a ip a (Or.inl rfl) httl ht hskip] at hpa
          exact Option.noConfusion hpa
        · rw [h, probe_reserve_hit c t0 ttl t a ip ip (Or.inr rfl) httl ht hskip] at hpa
          exact Option.noConfusion hpa
        · exact Or.inl h
        · exact Or.inr h
      exact ⟨{ message := rateLimitMsg (t0 + ttl - t), status := 429 },
        admit_of_ip_hit _ pc ttl t a' ip' (t0 + ttl - t) hskip2 httl hpa
          (probe_reserve_hit c t0 ttl t a ip ip' hip' httl ht hskip), rfl⟩
  · intro t ht
    rw [hres]
    exact admit_after_reserve c pc ttl t0 t a ip a ip (Or.inl rfl) hskip httl ht

theorem C4_window_rejection_countdown_witness :
    (Limiter.admitRequest ⟨(NewLimiter 0 (10 * second)).cache, 0, 10 * second⟩ 0 "a" "ip").1 =
      .admitted ∧
    (∀ t a' ip', t ≤ 0 + 10 * second →
      (a' = "a" ∨ a' = "ip" ∨ ip' = "a" ∨ ip' = "ip") →
      ∃ resp,
        Limiter.admitRequest
            ⟨(Limiter.admitRequest ⟨(NewLimiter 0 (10 * second)).cache, 0,
              10 * second⟩ 0 "a" "ip").2, 0, 10 * second⟩ t a' ip' =
          (.rejected resp,
            (Limiter.admitRequest ⟨(NewLimiter 0 (10 * second)).cache, 0,
              10 * second⟩ 0 "a" "ip").2) ∧
        resp.status = 429) ∧
    (∀ t, t ≤ 0 + 10 * second →
      Limiter.admitRequest
          ⟨(Limiter.admitRequest ⟨(NewLimiter 0 (10 * second)).cache, 0,
            10 * second⟩ 0 "a" "ip").2, 0, 10 * second⟩ t "a" "ip" =
        (.rejected { message := rateLimitMsg (0 + 10 * second - t), status := 429 },
          (Limiter.admitRequest ⟨(NewLimiter 0 (10 * second)).cache, 0,
            10 * second⟩ 0 "a" "ip").2)) ∧
    (0 : Int) + 10 * second - 200000000 < 0 + 10 * second - 100000000 ∧
    roundToSeconds (0 + 10 * second - 200000000) ≤ roundToSeconds (0 + 10 * second - 100000000) :=
  C4_window_rejection_countdown (NewLimiter 0 (10 * second)).cache 0 (10 * second) 0
    100000000 200000000 "a" "ip" rfl (by decide) rfl rfl (by decide) (by decide)

/-- C2: when an admitted request's downstream handler completes with a
status other than 200, both the address key and the identity key are
removed from the store, so an immediate subsequent admission for the
same identity succeeds at any later instant; when the downstream status
is 200 both reservations remain — live until the natural expiry
`now + ttl` and absent afterwards. -/
theorem C2_rollback_on_failure (c : Cache) (pc ttl now : Int) (a ip : String)
    (r : Request) (ds : Nat)
    (hipdef : ip = getClientIPFromRequest pc r)
    (hskip : c.skipTTLExtension = true) (httl : 0 < ttl)
    (ha : c.probe now a = none) (hip : c.probe now ip = none)
    (hds : ds ≠ 200) :
    Limiter.serveHTTP ⟨c, pc, ttl⟩ now (.ok a) r ds =
      (.handled ds,
        ((((c.setWithTTL now a ttl).setWithTTL now ip ttl).remove a).remove ip)) ∧
    (∀ t, (Limiter.admitRequest
        ⟨(((c.setWithTTL now a ttl).setWithTTL now ip ttl).remove a).remove ip, pc, ttl⟩
        t a ip).1 = .admitted) ∧
    Limiter.serveHTTP ⟨c, pc, ttl⟩ now (.ok a) r 200 =
      (.handled 200, (c.setWithTTL now a ttl).setWithTTL now ip ttl) ∧
    (∀ t, t ≤ now + ttl →
      ((c.setWithTTL now a ttl).setWithTTL now ip ttl).probe t a = some (now + ttl - t) ∧
      ((c.setWithTTL now a ttl).setWithTTL now ip ttl).probe t ip = some (now + ttl - t)) ∧
    (∀ t, now + ttl < t →
      ((c.setWithTTL now a ttl).setWithTTL now ip ttl).probe t a = none ∧
      ((c.setWithTTL now a ttl).setWithTTL now ip ttl).probe t ip = none) := by
  have hadm := admit_of_both_absent c pc ttl now a ip hskip httl ha hip
  refine ⟨?_, ?_, ?_, ?_, ?_⟩
  · show (if ttl ≤ 0 then ((Outcome.handled ds, c) : Outcome × Cache)
        else match Limiter.admitRequest ⟨c, pc, ttl⟩ now a (getClientIPFromRequest pc r) with
          | (.rejected resp, c') => (.rejected resp, c')
          | (.admitted, c') =>
            if ds ≠ 200 then
              (.handled ds, (c'.remove a).remove (getClientIPFromRequest pc r))
            else (.handled ds, c')) = _
    rw [if_neg (not_le.mpr httl), ← hipdef, hadm]
    exact if_pos hds
  · intro t
    have hskip2 :
        ((((c.setWithTTL now a ttl).setWithTTL now ip ttl).remove a).remove ip).skipTTLExtension =
          true := hskip
    rw [admit_of_both_absent _ pc ttl t a ip hskip2 httl
      (probe_remove_both _ t a ip a (Or.inl rfl))
      (probe_remove_both _ t a ip ip (Or.inr rfl))]
  · show (if ttl ≤ 0 then ((Outcome.handled 200, c) : Outcome × Cache)
        else match Limiter.admitRequest ⟨c, pc, ttl⟩ now a (getClientIPFromRequest pc r) with
          | (.rejected resp, c') => (.rejected resp, c')
          | (.admitted, c') =>
            if (200 : Nat) ≠ 200 then
              (.handled 200, (c'.remove a).remove (getClientIPFromRequest pc r))
            else (.handled 200, c')) = _
    rw [if_neg (not_le.mpr httl), ← hipdef, hadm]
    exact if_neg (not_not_intro rfl)
  · intro t ht
    exact ⟨probe_reserve_hit c now ttl t a ip a (Or.inl rfl) httl ht hskip,
      probe_reserve_hit c now ttl t a ip ip (Or.inr rfl) httl ht hskip⟩
  · intro t ht
    exact ⟨probe_reserve_expired c now ttl t a ip a (Or.inl rfl) httl ht,
      probe_reserve_expired c now ttl t a ip ip (Or.inr rfl) httl ht⟩

theorem C2_rollback_on_failure_witness :
    Limiter.serveHTTP ⟨(NewLimiter 0 second).cache, 0, second⟩ 0 (.ok "a")
        { xForwardedFor := "", remoteAddr := "1.2.3.4:80" } 503 =
      (.handled 503,
        (((((NewLimiter 0 second).cache.setWithTTL 0 "a" second).setWithTTL 0 "1.2.3.4"
          second).remove "a").remove "1.2.3.4")) ∧
    (∀ t, (Limiter.admitRequest
        ⟨(((((NewLimiter 0 second).cache.setWithTTL 0 "a" second).setWithTTL 0 "1.2.3.4"
          second).remove "a").remove "1.2.3.4"), 0, second⟩ t "a" "1.2.3.4").1 = .admitted) ∧
    Limiter.serveHTTP ⟨(NewLimiter 0 second).cache, 0, second⟩ 0 (.ok "a")
        { xForwardedFor := "", remoteAddr := "1.2.3.4:80" } 200 =
      (.handled 200,
        (((NewLimiter 0 second).cache.setWithTTL 0 "a" second).setWithTTL 0 "1.2.3.4" second)) ∧
    (∀ t, t ≤ 0 + second →
      ((((NewLimiter 0 second).cache.setWithTTL 0 "a" second).setWithTTL 0 "1.2.3.4"
        second).probe t "a" = some (0 + second - t) ∧
      (((NewLimiter 0 second).cache.setWithTTL 0 "a" second).setWithTTL 0 "1.2.3.4"
        second).probe t "1.2.3.4" = some (0 + second - t))) ∧
    (∀ t, 0 + second < t →
      ((((NewLimiter 0 second).cache.setWithTTL 0 "a" second).setWithTTL 0 "1.2.3.4"
        second).probe t "a" = none ∧
      (((NewLimiter 0 second).cache.setWithTTL 0 "a" second).setWithTTL 0 "1.2.3.4"
        second).probe t "1.2.3.4" = none)) :=
  C2_rollback_on_failure (NewLimiter 0 second).cache 0 second 0 "a" "1.2.3.4"
    { xForwardedFor := "", remoteAddr := "1.2.3.4:80" } 503
    (by decide) rfl (by decide) rfl rfl (by decide)

/-- C8: under the mutex, each probe-both-then-reserve-both region is one
atomic step, so any concurrent execution of N admission calls sharing
one identity is a serialization of such steps; starting from the freshly
constructed limiter (neither key present, positive ttl), every such
serialization whose instants all lie within the window admits exactly
one of the N calls. -/
theorem C8_exactly_one_admitted (pc ttl t0 : Int) (a ip : String) (ts : List Int)
    (httl : 0 < ttl) (hts : ∀ t ∈ ts, t ≤ t0 + ttl) :
    (admitSeq pc ttl a ip (NewLimiter pc ttl).cache (t0 :: ts)).1 = 1 := by
  have hadm := admit_of_both_absent (NewLimiter pc ttl).cache pc ttl t0 a ip rfl httl rfl rfl
  show (match Limiter.admitRequest ⟨(NewLimiter pc ttl).cache, pc, ttl⟩ t0 a ip with
        | (.admitted, c') =>
          ((admitSeq pc ttl a ip c' ts).1 + 1, (admitSeq pc ttl a ip c' ts).2)
        | (.rejected _, c') => admitSeq pc ttl a ip c' ts).1 = 1
  rw [hadm]
  simp [admitSeq_after_reserve pc ttl t0 a ip (NewLimiter pc ttl).cache rfl httl ts hts]

theorem C8_exactly_one_admitted_witness :
    (admitSeq 0 second "a" "ip" (NewLimiter 0 second).cache [0, 1, 2]).1 = 1 :=
  C8_exactly_one_admitted 0 second 0 "a" "ip" [1, 2] (by decide) (by decide)

end Faucet
